import Mathlib

/-!
Shallow embedding of the name-resolution / local-cache core of the
`notion-cli` repository (`src/scripts/notion.py`): the `NotionCache`
class (`_load`, `_save`, `is_stale`, `update_from_search`,
`find_by_path`, `_find_by_title`, `get_title`) and the path resolver
(`is_uuid`, `resolve_id`).

Modelling conventions:
- Python `dict`s are insertion-ordered association lists; `d[k] = v`
  replaces in place when the key is present and appends otherwise;
  iteration order is list order.
- Wall-clock instants (`datetime`) are integers (seconds); the 24-hour
  TTL is 86400 seconds; `datetime.now()` is an explicit `now` argument.
- The dynamically typed `parent_id` slot (which can hold `None`, a
  string, or the boolean `True` coming from a `{"workspace": true}`
  parent reference) is the type `PyVal`; Python truthiness and the
  `or` operator on such values are modelled explicitly.
- Network and file-system effects of `resolve_id` are modelled by an
  oracle argument (the result list `search_notion` would return) and an
  explicit event trace.
-/

namespace Notion

/-! ### Python string primitives

The Python string operations the code uses (`split`, `strip`,
`lower`, `replace`, substring membership) are modelled directly over
the character list of a `String`, mirroring Python's semantics:
`"".split("/") == [""]`, `"a//b".split("/") == ["a", "", "b"]`,
`strip` removes leading and trailing whitespace, `replace("-", "")`
removes every hyphen. -/

/-- Splitting helper: split a character list on a separator character,
accumulating the current segment in reverse. -/
def splitCharAux (sep : Char) : List Char → List Char → List (List Char)
  | [], acc => [acc.reverse]
  | c :: cs, acc =>
    if c = sep then acc.reverse :: splitCharAux sep cs []
    else splitCharAux sep cs (c :: acc)

/-- Python `s.split(sep)` for a one-character separator: always returns
at least one segment, empty segments included. -/
def pySplit (s : String) (sep : Char) : List String :=
  (splitCharAux sep s.data []).map (fun cs => ⟨cs⟩)

/-- Python `s.lower()` (restricted to the ASCII case mapping, which is
all the code relies on). -/
def pyLower (s : String) : String := ⟨s.data.map Char.toLower⟩

/-- Python `s.strip()`: remove leading and trailing whitespace. -/
def pyStrip (s : String) : String :=
  ⟨((s.data.dropWhile Char.isWhitespace).reverse.dropWhile Char.isWhitespace).reverse⟩

/-- The last element of a list of strings, with a default — Python's
`list[-1]` on the never-empty result of `split`. -/
def lastD : List String → String → String
  | [], d => d
  | [x], _ => x
  | _ :: y :: rest, d => lastD (y :: rest) d

/-- A dynamically typed Python value as it can appear in the cache's
`parent_id` slot: `None`, a string, or a boolean. -/
inductive PyVal where
  | vnone : PyVal
  | vstr (s : String) : PyVal
  | vbool (b : Bool) : PyVal
deriving DecidableEq, Repr

/-- Python truthiness for `PyVal`: `None` and `""` and `False` are
falsy, everything else is truthy. -/
def PyVal.truthy : PyVal → Bool
  | .vnone => false
  | .vstr s => s ≠ ""
  | .vbool b => b

/-- Python `a or b` on `PyVal`: returns `a` when `a` is truthy,
otherwise `b`. -/
def pyOr (a b : PyVal) : PyVal := if a.truthy then a else b

/-- Python `v == s` where `s` is a string: true only when `v` is the
same string (`True == "x"` and `None == "x"` are false in Python). -/
def PyVal.eqStr : PyVal → String → Bool
  | .vstr s', s => s' == s
  | _, _ => false

/-- Python `v != s` for a string literal `s`. -/
def PyVal.neStr (v : PyVal) (s : String) : Bool := !(v.eqStr s)

/-- One cache entry, as built by `update_from_search`
(`src/scripts/notion.py` lines 144-151). -/
structure Entry where
  id : String
  title : String
  parent_id : PyVal
  url : Option String
  last_seen : Int
  archived : Bool
deriving DecidableEq, Repr

/-- The in-memory cache dictionary `self.data`: `pages`, `databases`,
`hierarchy` and `last_refresh` (`src/scripts/notion.py` lines 91-96).
Dictionaries are insertion-ordered association lists. -/
structure Cache where
  pages : List (String × Entry)
  databases : List (String × Entry)
  hierarchy : List (PyVal × List String)
  last_refresh : Option Int
deriving DecidableEq, Repr

/-- The default empty cache structure returned by `_load` for a missing
or corrupt file. -/
def Cache.empty : Cache := ⟨[], [], [], none⟩

section Assoc

variable {α β : Type} [DecidableEq α]

/-- Key membership in an association list (Python `k in d`). -/
def keyMem (l : List (α × β)) (k : α) : Bool := l.any (fun p => p.1 = k)

/-- Python dict assignment `d[k] = v`: replace in place when the key is
present, append otherwise. -/
def dset (l : List (α × β)) (k : α) (v : β) : List (α × β) :=
  if keyMem l k then l.map (fun p => if p.1 = k then (p.1, v) else p)
  else l ++ [(k, v)]

/-- Python dict lookup `d.get(k)`: the first (unique, for genuine
dicts) binding of `k`. -/
def alookup (l : List (α × β)) (k : α) : Option β :=
  (l.find? (fun p => p.1 = k)).map (·.2)

/-- The hierarchy update of `update_from_search`
(`src/scripts/notion.py` lines 159-163): ensure the parent key exists,
then append the child id if it is not already present. -/
def hadd (h : List (α × List String)) (k : α) (x : String) :
    List (α × List String) :=
  let h' := if keyMem h k then h else h ++ [(k, [])]
  h'.map (fun p => if p.1 = k then (p.1, if x ∈ p.2 then p.2 else p.2 ++ [x]) else p)

/-- Every binding of key `k` in `l` carries value `v`, and `k` is
present. -/
def AllAt (l : List (α × β)) (k : α) (v : β) : Prop :=
  keyMem l k = true ∧ ∀ p ∈ l, p.1 = k → p.2 = v

/-- Key `k` is present in the hierarchy and `x` appears in the child
list of every binding of `k`. -/
def InAll (h : List (α × List String)) (k : α) (x : String) : Prop :=
  keyMem h k = true ∧ ∀ p ∈ h, p.1 = k → x ∈ p.2

/-- A conditional keyed overwrite with a value depending only on the
item: the shape of the `pages` / `databases` updates of the
`update_from_search` loop. -/
def dstep {ι : Type} (φ : ι → Prop) [DecidablePred φ] (κ : ι → α) (ν : ι → β)
    (l : List (α × β)) (i : ι) : List (α × β) :=
  if φ i then dset l (κ i) (ν i) else l

/-- A conditional deduplicating append: the shape of the `hierarchy`
update of the `update_from_search` loop. -/
def hstep {ι : Type} (ψ : ι → Bool) (π : ι → α) (χ : ι → String)
    (h : List (α × List String)) (i : ι) : List (α × List String) :=
  if ψ i then hadd h (π i) (χ i) else h

end Assoc

/-- One element of a Notion rich-text array; only `plain_text` is read
(with default `"Untitled"` when absent). -/
structure RichText where
  plain_text : Option String
deriving DecidableEq, Repr

/-- The value of `properties["title"]` / `properties["Name"]` on a page
result: a dict whose `title` field holds a rich-text array (the field
may be absent). -/
structure TitleObj where
  title : Option (List RichText)
deriving DecidableEq, Repr

/-- A search-result object's `parent` reference; each of the three
possible fields is `vnone` when absent (`parent.get(...)`). -/
structure ParentRef where
  page_id : PyVal
  database_id : PyVal
  workspace : PyVal
deriving DecidableEq, Repr

/-- A well-formed search-result object as consumed by
`update_from_search`: the fields of the JSON object that the code
reads.  `properties_title` and `properties_name` are
`properties.get("title")` and `properties.get("Name")`; `db_title` is
the top-level `title` array of a database result. -/
structure Item where
  object : String
  id : String
  properties_title : Option TitleObj
  properties_name : Option TitleObj
  db_title : Option (List RichText)
  parent : ParentRef
  url : Option String
  archived : Bool
deriving DecidableEq, Repr

/-- Title extraction of `update_from_search`
(`src/scripts/notion.py` lines 129-137): pages read
`properties.get("title") or properties.get("Name")` and then the first
rich-text element's `plain_text`; databases read the top-level `title`
array; everything defaults to `"Untitled"`. -/
def extractTitle (it : Item) : String :=
  if it.object = "page" then
    match (match it.properties_title with
           | some tp => some tp
           | none => it.properties_name) with
    | some tp =>
      match tp.title with
      | some (rt :: _) => rt.plain_text.getD "Untitled"
      | _ => "Untitled"
    | none => "Untitled"
  else if it.object = "database" then
    match it.db_title with
    | some (rt :: _) => rt.plain_text.getD "Untitled"
    | _ => "Untitled"
  else "Untitled"

/-- Parent-identifier extraction (`src/scripts/notion.py` line 141):
`parent.get("page_id") or parent.get("database_id") or
parent.get("workspace")` with Python `or` semantics. -/
def parentIdOf (it : Item) : PyVal :=
  pyOr (pyOr it.parent.page_id it.parent.database_id) it.parent.workspace

/-- The cache entry built for one search-result item at time `now`
(`src/scripts/notion.py` lines 144-151). -/
def mkEntry (it : Item) (now : Int) : Entry :=
  ⟨it.id, extractTitle it, parentIdOf it, it.url, now, it.archived⟩

/-- The per-item body of the `update_from_search` loop
(`src/scripts/notion.py` lines 124-163): store the entry in `pages` or
`databases` according to the `object` field, and record the parent →
child edge in `hierarchy` when the parent id is truthy and not the
literal string `"workspace"`. -/
def updateStep (now : Int) (d : Cache) (it : Item) : Cache :=
  let entry := mkEntry it now
  let pid := parentIdOf it
  { pages := if it.object = "page" then dset d.pages it.id entry else d.pages,
    databases :=
      if it.object = "database" then dset d.databases it.id entry else d.databases,
    hierarchy :=
      if pid.truthy && pid.neStr "workspace" then hadd d.hierarchy pid it.id
      else d.hierarchy,
    last_refresh := d.last_refresh }

/-- `NotionCache.update_from_search` (`src/scripts/notion.py` lines
122-166): fold the loop body over the result list, then set
`last_refresh` to the current time.  (The trailing `_save()` is
modelled in the system layer below.) -/
def update_from_search (c : Cache) (results : List Item) (now : Int) : Cache :=
  let c' := results.foldl (updateStep now) c
  { c' with last_refresh := some now }

/-- `NotionCache.is_stale` (`src/scripts/notion.py` lines 114-120):
true when `last_refresh` is absent, otherwise true exactly when the
elapsed time strictly exceeds 24 hours (86400 seconds). -/
def is_stale (c : Cache) (now : Int) : Bool :=
  match c.last_refresh with
  | none => true
  | some t => decide (now - t > 86400)

/-- `NotionCache._find_by_title` (`src/scripts/notion.py` lines
200-211): scan the collection selected by `obj_type` in iteration
order, collect ids whose title matches case-insensitively and —
only when a parent constraint is given — whose `parent_id` equals it;
return the first match. -/
def find_by_title (c : Cache) (title : String) (obj_type : String)
    (parent : Option String) : Option String :=
  let collection := if obj_type = "page" then c.pages else c.databases
  let found := collection.filter (fun p =>
    pyLower p.2.title == pyLower title &&
    (match parent with
     | none => true
     | some pid => p.2.parent_id.eqStr pid))
  found.head?.map (·.1)

/-- The segments of a path: split on `/` and strip surrounding
whitespace from each part (`src/scripts/notion.py` line 179). -/
def pathParts (path : String) : List String :=
  (pySplit path '/').map pyStrip

/-- The tail of the `find_by_path` traversal loop
(`src/scripts/notion.py` lines 191-196): each remaining segment is
resolved with the previously resolved id as parent constraint; a falsy
result (`None` or `""`) aborts with not-found. -/
def findRest (c : Cache) (obj_type : String) : List String → String → Option String
  | [], cur => some cur
  | p :: rest, cur =>
    match find_by_title c p obj_type (some cur) with
    | none => none
    | some r => if r = "" then none else findRest c obj_type rest r

/-- `NotionCache.find_by_path` (`src/scripts/notion.py` lines 168-198):
a single-segment path is a direct title lookup; a multi-segment path
resolves segment 0 with `parent_id=None` (which `_find_by_title`
treats as "no constraint") and each later segment under the id
resolved so far. -/
def find_by_path (c : Cache) (path : String) (obj_type : String) : Option String :=
  match pathParts path with
  | [p] => find_by_title c p obj_type none
  | p :: rest =>
    match find_by_title c p obj_type none with
    | none => none
    | some r => if r = "" then none else findRest c obj_type rest r
  | [] => none

/-- `NotionCache.get_title` (`src/scripts/notion.py` lines 213-219):
look the id up in `pages`, then in `databases`. -/
def get_title (c : Cache) (item_id : String) : Option String :=
  match alookup c.pages item_id with
  | some e => some e.title
  | none =>
    match alookup c.databases item_id with
    | some e => some e.title
    | none => none

/-- `is_uuid` (`src/scripts/notion.py` lines 657-661): strip hyphens,
require exactly 32 characters, all hexadecimal after lowercasing. -/
def hexDigits : List Char := "0123456789abcdef".data

def is_uuid (value : String) : Bool :=
  let cleaned := value.data.filter (fun c => c != '-')
  cleaned.length == 32 && (cleaned.map Char.toLower).all (fun c => c ∈ hexDigits)

/-- Python truthiness of an `Optional[str]`: `None` and `""` are
falsy (the `if resolved_id:` / `if not current_id:` checks). -/
def optTruthy : Option String → Bool
  | none => false
  | some s => s ≠ ""

/-- The final path segment `name_or_id.split("/")[-1]` used as the
fallback search query (`src/scripts/notion.py` line 736). -/
def lastSegment (s : String) : String := lastD (pySplit s '/') ""

/-- Observable effects of `resolve_id`: a cache lookup, a network
search (with its query string and object-type filter), and a cache
update (`update_from_search`, which also rewrites the cache file). -/
inductive REvent where
  | lookup (path : String) (obj_type : String) : REvent
  | search (query : String) (filter_type : String) : REvent
  | cacheUpdate : REvent
deriving DecidableEq, Repr

/-- `resolve_id` (`src/scripts/notion.py` lines 709-744), with the
network modelled by the oracle `results` (what `search_notion` would
return) and the wall clock by `now`.  Returns the resolution outcome
(`Except` models the raised `ClickException`), the final cache state,
and the trace of effects in order. -/
def resolve_id (c : Cache) (name_or_id : String) (obj_type : String)
    (results : List Item) (now : Int) :
    Except String String × Cache × List REvent :=
  if is_uuid name_or_id then (.ok name_or_id, c, [])
  else
    let r0 := find_by_path c name_or_id obj_type
    if optTruthy r0 then (.ok (r0.getD ""), c, [.lookup name_or_id obj_type])
    else
      let evs := [REvent.lookup name_or_id obj_type,
                  REvent.search (lastSegment name_or_id) obj_type]
      if results.isEmpty then
        (.error ("Could not find " ++ obj_type ++ " '" ++ name_or_id ++ "'"), c, evs)
      else
        let c' := update_from_search c results now
        let evs' := evs ++ [REvent.cacheUpdate, REvent.lookup name_or_id obj_type]
        let r1 := find_by_path c' name_or_id obj_type
        if optTruthy r1 then (.ok (r1.getD ""), c', evs')
        else
          (.error ("Could not find " ++ obj_type ++ " '" ++ name_or_id ++ "'"), c', evs')

/-- System-level state: the in-memory cache (`self.data`) together with
the persisted cache file contents (`none` models a missing file). -/
structure Sys where
  data : Cache
  file : Option Cache
deriving DecidableEq, Repr

/-- `update_from_search` at the system level: mutate the in-memory
data, then `_save()` rewrites the file with the new state
(`src/scripts/notion.py` lines 109-112, 166). -/
def update_from_search_op (s : Sys) (results : List Item) (now : Int) : Sys :=
  let d := update_from_search s.data results now
  { data := d, file := some d }

/-- `is_stale` at the system level: the method only reads `self.data`,
so the state is returned unchanged alongside the result. -/
def is_stale_op (s : Sys) (now : Int) : Sys × Bool :=
  (s, is_stale s.data now)

/-- `find_by_path` at the system level: a pure read of `self.data`. -/
def find_by_path_op (s : Sys) (path : String) (obj_type : String) :
    Sys × Option String :=
  (s, find_by_path s.data path obj_type)

/-- `get_title` at the system level: a pure read of `self.data`. -/
def get_title_op (s : Sys) (item_id : String) : Sys × Option String :=
  (s, get_title s.data item_id)

/-! ### Raw persisted states

`_load` returns whatever JSON document the cache file holds; nothing
re-validates its shape.  To settle claims about malformed persisted
states the operations are also modelled over raw JSON values, with
`Except` capturing the Python exceptions (`KeyError`,
`AttributeError`, ...) the code can raise on such states. -/

/-- A JSON value as produced by `json.load`. -/
inductive J where
  | null : J
  | jbool (b : Bool) : J
  | jnum (n : Int) : J
  | jstr (s : String) : J
  | jarr (xs : List J) : J
  | jobj (fields : List (String × J)) : J

/-- `NotionCache._load` (`src/scripts/notion.py` lines 88-107): the
argument is `none` when the file does not exist, `some none` when the
file exists but `json.load` fails, and `some (some v)` when it parses
to `v`.  A missing file or a parse failure yields the default empty
structure; nothing validates a successfully parsed document. -/
def load (file : Option (Option J)) : J :=
  match file with
  | none => J.jobj [("pages", J.jobj []), ("databases", J.jobj []),
                    ("hierarchy", J.jobj []), ("last_refresh", J.null)]
  | some none => J.jobj [("pages", J.jobj []), ("databases", J.jobj []),
                         ("hierarchy", J.jobj []), ("last_refresh", J.null)]
  | some (some v) => v

/-- The default empty structure of `_load`. -/
def defaultData : J :=
  J.jobj [("pages", J.jobj []), ("databases", J.jobj []),
          ("hierarchy", J.jobj []), ("last_refresh", J.null)]

/-- The match-collection loop of `_find_by_title` over a raw
collection: `item["title"]` raises `KeyError` when the key is missing
(`TypeError` when the item is not a dict) and `.lower()` raises
`AttributeError` when the title is not a string
(`src/scripts/notion.py` lines 204-208). -/
def scanTitlesRaw (titleLower : String) (parent : Option String) :
    List (String × J) → List String → Except String (Option String)
  | [], acc => .ok acc.head?
  | (item_id, item) :: rest, acc => do
    let fields ← (match item with
      | J.jobj fs => .ok fs
      | _ => .error "TypeError: item is not subscriptable")
    let tv ← (match alookup fields "title" with
      | some v => .ok v
      | none => .error "KeyError: title")
    let ts ← (match tv with
      | J.jstr s => .ok s
      | _ => .error "AttributeError: lower")
    if pyLower ts = titleLower then
      match parent with
      | none => scanTitlesRaw titleLower parent rest (acc ++ [item_id])
      | some pid =>
        let pv := (alookup fields "parent_id").getD J.null
        if (match pv with | J.jstr s => s == pid | _ => false) then
          scanTitlesRaw titleLower parent rest (acc ++ [item_id])
        else
          scanTitlesRaw titleLower parent rest acc
    else
      scanTitlesRaw titleLower parent rest acc

/-- `_find_by_title` over a raw persisted state:
`self.data.get(...)` raises `AttributeError` when the loaded document
is not an object, and iterating `collection.items()` raises when the
collection is not an object. -/
def find_by_title_raw (d : J) (title : String) (obj_type : String)
    (parent : Option String) : Except String (Option String) := do
  let fs ← (match d with
    | J.jobj fs => .ok fs
    | _ => .error "AttributeError: get")
  let coll := (alookup fs (if obj_type = "page" then "pages" else "databases")).getD
    (J.jobj [])
  let items ← (match coll with
    | J.jobj its => .ok its
    | _ => .error "AttributeError: items")
  scanTitlesRaw (pyLower title) parent items []

/-- The traversal tail of `find_by_path` over a raw persisted state. -/
def findRestRaw (d : J) (obj_type : String) :
    List String → String → Except String (Option String)
  | [], cur => .ok (some cur)
  | p :: rest, cur => do
    let r ← find_by_title_raw d p obj_type (some cur)
    match r with
    | none => .ok none
    | some x => if x = "" then .ok none else findRestRaw d obj_type rest x

/-- `find_by_path` over a raw persisted state. -/
def find_by_path_raw (d : J) (path : String) (obj_type : String) :
    Except String (Option String) :=
  match pathParts path with
  | [p] => find_by_title_raw d p obj_type none
  | p :: rest => do
    let r ← find_by_title_raw d p obj_type none
    match r with
    | none => .ok none
    | some x => if x = "" then .ok none else findRestRaw d obj_type rest x
  | [] => .ok none

/-! ### Auxiliary definitions for the claims -/

/-- The spec's reading of an unconstrained lookup, for comparison with
`_find_by_title`: match by title only (case-insensitively), never
reading `parent_id`, and return the first match in iteration order. -/
def find_by_title_any (c : Cache) (title : String) (obj_type : String) :
    Option String :=
  let collection := if obj_type = "page" then c.pages else c.databases
  (collection.filter (fun p => pyLower p.2.title == pyLower title)).head?.map (·.1)

/-- A sequence of `update_from_search` calls, each with its result list
and its wall-clock time, applied in order. -/
def applyAll (c : Cache) (calls : List (List Item × Int)) : Cache :=
  calls.foldl (fun d rt => update_from_search d rt.1 rt.2) c

/-- All items processed by a sequence of calls, in order. -/
def allItems (calls : List (List Item × Int)) : List Item :=
  calls.foldr (fun rt acc => rt.1 ++ acc) []

/-- A page search result whose parent is the workspace
(`"parent": {"workspace": true}`), the shape the repository's own test
suite uses for root-level pages. -/
def wsItem : Item :=
  { object := "page", id := "p1",
    properties_title := some ⟨some [⟨some "Notes"⟩]⟩,
    properties_name := none, db_title := none,
    parent := ⟨.vnone, .vnone, .vbool true⟩,
    url := some "u", archived := false }

/-- A cache in which the only entry titled `"A"` has a non-null cached
parent (`"x"`), and `"B"` is a child of that entry. -/
def cFirstSeg : Cache :=
  ⟨[("a", ⟨"a", "A", .vstr "x", none, 0, false⟩),
    ("b", ⟨"b", "B", .vstr "a", none, 0, false⟩)], [], [], none⟩

/-- A cache holding the parent chain `a → b → c` (by `parent_id`
links) in which the intermediate node `b` is a database while `a` and
`c` are pages. -/
def mixedChain : Cache :=
  ⟨[("a", ⟨"a", "A", .vnone, none, 0, false⟩),
    ("c", ⟨"c", "C", .vstr "b", none, 0, false⟩)],
   [("b", ⟨"b", "B", .vstr "a", none, 0, false⟩)], [], none⟩

/-- A page result with identifier `"x"`. -/
def pgX : Item :=
  ⟨"page", "x", some ⟨some [⟨some "P"⟩]⟩, none, none,
   ⟨.vnone, .vnone, .vnone⟩, none, false⟩

/-- A database result with the same identifier `"x"`. -/
def dbX : Item :=
  ⟨"database", "x", none, none, some [⟨some "D"⟩],
   ⟨.vnone, .vnone, .vnone⟩, none, false⟩

/-- A page result with identifier `"pa"`. -/
def pgA : Item :=
  ⟨"page", "pa", some ⟨some [⟨some "PA"⟩]⟩, none, none,
   ⟨.vnone, .vnone, .vnone⟩, none, false⟩

/-- A database result with identifier `"db"`. -/
def dbB : Item :=
  ⟨"database", "db", none, none, some [⟨some "DB"⟩],
   ⟨.vnone, .vnone, .vnone⟩, none, false⟩

/-- A syntactically valid JSON persisted state whose single page entry
lacks the `"title"` field. -/
def badState : J := J.jobj [("pages", J.jobj [("x", J.jobj [])])]

/-! ### Association-list lemmas -/

section AssocLemmas

variable {α β : Type} [DecidableEq α]

/-- A map that fixes every element of a list is the identity on it. -/
theorem map_id_of {γ : Type} (l : List γ) (f : γ → γ) (h : ∀ a ∈ l, f a = a) :
    l.map f = l := by
  induction l with
  | nil => rfl
  | cons a l ih =>
    simp only [List.map_cons, List.cons.injEq]
    exact ⟨h a (by simp), ih (fun b hb => h b (by simp [hb]))⟩

theorem keyMem_iff (l : List (α × β)) (k : α) :
    keyMem l k = true ↔ ∃ p ∈ l, p.1 = k := by
  simp [keyMem]

theorem keyMem_map_fst (l : List (α × β)) (f : α × β → α × β)
    (hf : ∀ p, (f p).1 = p.1) (x : α) : keyMem (l.map f) x = keyMem l x := by
  induction l with
  | nil => rfl
  | cons a l ih => simp [keyMem, hf, List.any_cons] at ih ⊢; rw [ih]

theorem keyMem_dset (l : List (α × β)) (k : α) (v : β) (x : α) :
    keyMem (dset l k v) x = true ↔ keyMem l x = true ∨ x = k := by
  unfold dset
  split
  · case isTrue h =>
    rw [keyMem_map_fst]
    · constructor
      · exact fun hx => Or.inl hx
      · rintro (hx | rfl)
        · exact hx
        · exact h
    · intro p; split <;> rfl
  · case isFalse h =>
    constructor
    · intro hx
      obtain ⟨p, hp, hpk⟩ := (keyMem_iff _ _).mp hx
      rcases List.mem_append.mp hp with hl | hr
      · exact Or.inl ((keyMem_iff l x).mpr ⟨p, hl, hpk⟩)
      · simp only [List.mem_singleton] at hr
        rw [hr] at hpk
        exact Or.inr hpk.symm
    · rintro (hx | rfl)
      · obtain ⟨p, hp, hpk⟩ := (keyMem_iff l x).mp hx
        exact (keyMem_iff _ _).mpr ⟨p, List.mem_append_left _ hp, hpk⟩
      · exact (keyMem_iff _ _).mpr ⟨(x, v), List.mem_append_right _ (by simp), rfl⟩

theorem allAt_dset_self (l : List (α × β)) (k : α) (v : β) :
    AllAt (dset l k v) k v := by
  constructor
  · rw [keyMem_dset]; exact Or.inr rfl
  · intro p hp hpk
    unfold dset at hp
    split at hp
    · case isTrue h =>
      obtain ⟨q, hq, rfl⟩ := List.mem_map.mp hp
      by_cases hqk : q.1 = k
      · rw [if_pos hqk]
      · rw [if_neg hqk] at hpk; exact absurd hpk hqk
    · case isFalse h =>
      rcases List.mem_append.mp hp with hl | hr
      · exact absurd ((keyMem_iff l k).mpr ⟨p, hl, hpk⟩) (by simpa using h)
      · simp only [List.mem_singleton] at hr; rw [hr]

theorem allAt_dset_other (l : List (α × β)) (k : α) (v : β) (k' : α) (v' : β)
    (h : AllAt l k v) (hne : k' ≠ k) : AllAt (dset l k' v') k v := by
  constructor
  · rw [keyMem_dset]; exact Or.inl h.1
  · intro p hp hpk
    unfold dset at hp
    split at hp
    · case isTrue hm =>
      obtain ⟨q, hq, rfl⟩ := List.mem_map.mp hp
      by_cases hqk : q.1 = k'
      · rw [if_pos hqk] at hpk
        have : k' = k := hqk.symm.trans hpk
        exact absurd this hne
      · rw [if_neg hqk] at hpk ⊢; exact h.2 q hq hpk
    · case isFalse hm =>
      rcases List.mem_append.mp hp with hl | hr
      · exact h.2 p hl hpk
      · simp only [List.mem_singleton] at hr
        rw [hr] at hpk
        exact absurd hpk hne

theorem dset_of_allAt (l : List (α × β)) (k : α) (v : β) (h : AllAt l k v) :
    dset l k v = l := by
  unfold dset
  rw [if_pos h.1]
  apply map_id_of
  intro p hp
  split
  · case isTrue hpk =>
    have := h.2 p hp hpk
    cases p; simp_all
  · case isFalse => rfl

theorem inAll_hadd_self (h : List (α × List String)) (k : α) (x : String) :
    InAll (hadd h k x) k x := by
  unfold hadd
  set h' := if keyMem h k then h else h ++ [(k, [])] with hh'
  have hk' : keyMem h' k = true := by
    rw [hh']; split
    · assumption
    · rw [keyMem_iff]
      exact ⟨(k, []), List.mem_append_right _ (by simp), rfl⟩
  constructor
  · rw [keyMem_map_fst _ _ (fun p => by split <;> rfl)]
    exact hk'
  · intro p hp hpk
    obtain ⟨q, hq, rfl⟩ := List.mem_map.mp hp
    by_cases hqk : q.1 = k
    · rw [if_pos hqk]
      by_cases hx : x ∈ q.2
      · simp only [if_pos hx]; exact hx
      · simp only [if_neg hx]
        exact List.mem_append_right _ (by simp)
    · rw [if_neg hqk] at hpk; exact absurd hpk hqk

theorem inAll_hadd_mono (h : List (α × List String)) (k : α) (x : String)
    (k' : α) (x' : String) (hin : InAll h k x) : InAll (hadd h k' x') k x := by
  unfold hadd
  set h' := if keyMem h k' then h else h ++ [(k', [])] with hh'
  have hk' : keyMem h' k = true := by
    rw [hh']; split
    · exact hin.1
    · obtain ⟨p, hp, hpk⟩ := (keyMem_iff h k).mp hin.1
      rw [keyMem_iff]
      exact ⟨p, List.mem_append_left _ hp, hpk⟩
  constructor
  · rw [keyMem_map_fst _ _ (fun p => by split <;> rfl)]
    exact hk'
  · intro p hp hpk
    obtain ⟨q, hq, rfl⟩ := List.mem_map.mp hp
    have hq' : q ∈ h ∨ (q = (k', ([] : List String)) ∧ keyMem h k' = false) := by
      by_cases hmem : keyMem h k'
      · rw [hh', if_pos hmem] at hq; exact Or.inl hq
      · rw [hh', if_neg hmem] at hq
        rcases List.mem_append.mp hq with h1 | h2
        · exact Or.inl h1
        · simp only [List.mem_singleton] at h2
          exact Or.inr ⟨h2, by simpa using hmem⟩
    by_cases hqk : q.1 = k'
    · rw [if_pos hqk] at hpk ⊢
      have hq1k : q.1 = k := hpk
      rcases hq' with hqh | ⟨rfl, habs⟩
      · have hx : x ∈ q.2 := hin.2 q hqh hq1k
        by_cases hx' : x' ∈ q.2
        · simpa [hx'] using hx
        · simp only [if_neg hx']
          exact List.mem_append_left _ hx
      · -- the freshly appended `(k', [])` binding exists only when `k'`
        -- was absent, contradicting `keyMem h k = true` with `k' = k`
        exfalso
        have hk'k : k' = k := hq1k
        rw [hk'k, hin.1] at habs
        exact Bool.noConfusion habs
    · rw [if_neg hqk] at hpk ⊢
      rcases hq' with hqh | ⟨rfl, _⟩
      · exact hin.2 q hqh hpk
      · exact absurd rfl hqk

theorem hadd_of_inAll (h : List (α × List String)) (k : α) (x : String)
    (hin : InAll h k x) : hadd h k x = h := by
  unfold hadd
  rw [if_pos hin.1]
  apply map_id_of
  intro p hp
  split
  · case isTrue hpk =>
    rw [if_pos (hin.2 p hp hpk)]
  · case isFalse => rfl

end AssocLemmas

/-! ### Generic single-pass folds over association lists

`update_from_search` is a left fold of a per-item step whose effect on
each of the three dictionaries is either a keyed overwrite (`dset`
with a value depending only on the item) or a deduplicating append
(`hadd`).  The lemmas below characterise such folds once, generically;
the cache-level facts are instances. -/

section FoldLemmas

variable {α β ι : Type} [DecidableEq α]

variable (φ : ι → Prop) [DecidablePred φ] (κ : ι → α) (ν : ι → β)

theorem allAt_foldl_preserve (R : List ι) (l : List (α × β)) (k : α) (v : β)
    (h : AllAt l k v) (hR : ∀ i ∈ R, φ i → κ i ≠ k) :
    AllAt (R.foldl (dstep φ κ ν) l) k v := by
  induction R generalizing l with
  | nil => exact h
  | cons a R ih =>
    simp only [List.foldl_cons]
    apply ih
    · unfold dstep
      split
      · case isTrue ha => exact allAt_dset_other _ _ _ _ _ h (hR a (by simp) ha)
      · exact h
    · exact fun i hi => hR i (by simp [hi])

theorem allAt_foldl_establish (R : List ι)
    (hp : R.Pairwise (fun i j => κ i ≠ κ j)) (l : List (α × β)) :
    ∀ i ∈ R, φ i → AllAt (R.foldl (dstep φ κ ν) l) (κ i) (ν i) := by
  induction R generalizing l with
  | nil => intro i hi; exact absurd hi (by simp)
  | cons a R ih =>
    rw [List.pairwise_cons] at hp
    intro i hi hφ
    simp only [List.foldl_cons]
    rcases List.mem_cons.mp hi with rfl | hiR
    · apply allAt_foldl_preserve
      · unfold dstep
        rw [if_pos hφ]
        exact allAt_dset_self _ _ _
      · exact fun j hj _ he => hp.1 j hj he.symm
    · exact ih hp.2 _ i hiR hφ

theorem foldl_fix {σ : Type} (f : σ → ι → σ) (R : List ι) (S : σ)
    (h : ∀ i ∈ R, f S i = S) : R.foldl f S = S := by
  induction R with
  | nil => rfl
  | cons a R ih =>
    simp only [List.foldl_cons, h a (by simp)]
    exact ih (fun i hi => h i (by simp [hi]))

theorem foldl_dstep_idem (R : List ι)
    (hp : R.Pairwise (fun i j => κ i ≠ κ j)) (l : List (α × β)) :
    R.foldl (dstep φ κ ν) (R.foldl (dstep φ κ ν) l) = R.foldl (dstep φ κ ν) l := by
  apply foldl_fix
  intro i hi
  unfold dstep
  split
  · case isTrue hφ =>
    exact dset_of_allAt _ _ _ (allAt_foldl_establish φ κ ν R hp l i hi hφ)
  · rfl

variable (ψ : ι → Bool) (π : ι → α) (χ : ι → String)

theorem inAll_foldl_preserve (R : List ι) (h : List (α × List String))
    (k : α) (x : String) (hin : InAll h k x) :
    InAll (R.foldl (hstep ψ π χ) h) k x := by
  induction R generalizing h with
  | nil => exact hin
  | cons a R ih =>
    simp only [List.foldl_cons]
    apply ih
    unfold hstep
    split
    · exact inAll_hadd_mono _ _ _ _ _ hin
    · exact hin

theorem inAll_foldl_establish (R : List ι) (h : List (α × List String)) :
    ∀ i ∈ R, ψ i = true → InAll (R.foldl (hstep ψ π χ) h) (π i) (χ i) := by
  induction R generalizing h with
  | nil => intro i hi; exact absurd hi (by simp)
  | cons a R ih =>
    intro i hi hψ
    simp only [List.foldl_cons]
    rcases List.mem_cons.mp hi with rfl | hiR
    · apply inAll_foldl_preserve
      unfold hstep
      rw [if_pos hψ]
      exact inAll_hadd_self _ _ _
    · exact ih _ i hiR hψ

theorem foldl_hstep_idem (R : List ι) (h : List (α × List String)) :
    R.foldl (hstep ψ π χ) (R.foldl (hstep ψ π χ) h) = R.foldl (hstep ψ π χ) h := by
  apply foldl_fix
  intro i hi
  unfold hstep
  split
  · case isTrue hψ =>
    exact hadd_of_inAll _ _ _ (inAll_foldl_establish ψ π χ R h i hi hψ)
  · rfl

theorem keyMem_foldl_dstep (R : List ι) (l : List (α × β)) (x : α)
    (hx : keyMem (R.foldl (dstep φ κ ν) l) x = true) :
    keyMem l x = true ∨ ∃ i ∈ R, φ i ∧ κ i = x := by
  induction R generalizing l with
  | nil => exact Or.inl hx
  | cons a R ih =>
    simp only [List.foldl_cons] at hx
    rcases ih _ hx with h1 | ⟨i, hi, hφ, hκ⟩
    · unfold dstep at h1
      split at h1
      · case isTrue ha =>
        rcases (keyMem_dset _ _ _ _).mp h1 with h2 | rfl
        · exact Or.inl h2
        · exact Or.inr ⟨a, by simp, ha, rfl⟩
      · exact Or.inl h1
    · exact Or.inr ⟨i, by simp [hi], hφ, hκ⟩

end FoldLemmas

/-! ### Cache-level consequences -/

section CacheLemmas

theorem cacheExt (a b : Cache) (h1 : a.pages = b.pages)
    (h2 : a.databases = b.databases) (h3 : a.hierarchy = b.hierarchy)
    (h4 : a.last_refresh = b.last_refresh) : a = b := by
  cases a; cases b; simp_all

theorem foldl_updateStep_pages (t : Int) (R : List Item) (c : Cache) :
    (R.foldl (updateStep t) c).pages =
      R.foldl (dstep (fun i : Item => i.object = "page") Item.id
        (fun i => mkEntry i t)) c.pages := by
  induction R generalizing c with
  | nil => rfl
  | cons a R ih => simp only [List.foldl_cons, ih]; rfl

theorem foldl_updateStep_databases (t : Int) (R : List Item) (c : Cache) :
    (R.foldl (updateStep t) c).databases =
      R.foldl (dstep (fun i : Item => i.object = "database") Item.id
        (fun i => mkEntry i t)) c.databases := by
  induction R generalizing c with
  | nil => rfl
  | cons a R ih => simp only [List.foldl_cons, ih]; rfl

theorem foldl_updateStep_hierarchy (t : Int) (R : List Item) (c : Cache) :
    (R.foldl (updateStep t) c).hierarchy =
      R.foldl (hstep (fun i : Item => (parentIdOf i).truthy && (parentIdOf i).neStr "workspace")
        parentIdOf Item.id) c.hierarchy := by
  induction R generalizing c with
  | nil => rfl
  | cons a R ih => simp only [List.foldl_cons, ih]; rfl

theorem update_pages (c : Cache) (R : List Item) (t : Int) :
    (update_from_search c R t).pages =
      R.foldl (dstep (fun i : Item => i.object = "page") Item.id
        (fun i => mkEntry i t)) c.pages :=
  foldl_updateStep_pages t R c

theorem update_databases (c : Cache) (R : List Item) (t : Int) :
    (update_from_search c R t).databases =
      R.foldl (dstep (fun i : Item => i.object = "database") Item.id
        (fun i => mkEntry i t)) c.databases :=
  foldl_updateStep_databases t R c

theorem update_hierarchy (c : Cache) (R : List Item) (t : Int) :
    (update_from_search c R t).hierarchy =
      R.foldl (hstep (fun i : Item => (parentIdOf i).truthy && (parentIdOf i).neStr "workspace")
        parentIdOf Item.id) c.hierarchy :=
  foldl_updateStep_hierarchy t R c

theorem update_lastRefresh (c : Cache) (R : List Item) (t : Int) :
    (update_from_search c R t).last_refresh = some t := rfl

theorem keyMem_update_pages (c : Cache) (R : List Item) (t : Int) (x : String)
    (hx : keyMem (update_from_search c R t).pages x = true) :
    keyMem c.pages x = true ∨ ∃ i ∈ R, i.object = "page" ∧ i.id = x := by
  rw [update_pages] at hx
  exact keyMem_foldl_dstep _ _ _ R c.pages x hx

theorem keyMem_update_databases (c : Cache) (R : List Item) (t : Int) (x : String)
    (hx : keyMem (update_from_search c R t).databases x = true) :
    keyMem c.databases x = true ∨ ∃ i ∈ R, i.object = "database" ∧ i.id = x := by
  rw [update_databases] at hx
  exact keyMem_foldl_dstep _ _ _ R c.databases x hx

theorem allItems_cons (rt : List Item × Int) (calls : List (List Item × Int)) :
    allItems (rt :: calls) = rt.1 ++ allItems calls := rfl

theorem keyMem_applyAll_pages (calls : List (List Item × Int)) (c : Cache)
    (x : String) (hx : keyMem (applyAll c calls).pages x = true) :
    keyMem c.pages x = true ∨ ∃ i ∈ allItems calls, i.object = "page" ∧ i.id = x := by
  induction calls generalizing c with
  | nil => exact Or.inl hx
  | cons rt calls ih =>
    have hx' : keyMem (applyAll (update_from_search c rt.1 rt.2) calls).pages x = true := hx
    rcases ih _ hx' with h1 | ⟨i, hi, hio, hii⟩
    · rcases keyMem_update_pages c rt.1 rt.2 x h1 with h2 | ⟨i, hi, hio, hii⟩
      · exact Or.inl h2
      · exact Or.inr ⟨i, by rw [allItems_cons]; exact List.mem_append_left _ hi, hio, hii⟩
    · exact Or.inr ⟨i, by rw [allItems_cons]; exact List.mem_append_right _ hi, hio, hii⟩

theorem keyMem_applyAll_databases (calls : List (List Item × Int)) (c : Cache)
    (x : String) (hx : keyMem (applyAll c calls).databases x = true) :
    keyMem c.databases x = true ∨
      ∃ i ∈ allItems calls, i.object = "database" ∧ i.id = x := by
  induction calls generalizing c with
  | nil => exact Or.inl hx
  | cons rt calls ih =>
    have hx' : keyMem (applyAll (update_from_search c rt.1 rt.2) calls).databases x = true := hx
    rcases ih _ hx' with h1 | ⟨i, hi, hio, hii⟩
    · rcases keyMem_update_databases c rt.1 rt.2 x h1 with h2 | ⟨i, hi, hio, hii⟩
      · exact Or.inl h2
      · exact Or.inr ⟨i, by rw [allItems_cons]; exact List.mem_append_left _ hi, hio, hii⟩
    · exact Or.inr ⟨i, by rw [allItems_cons]; exact List.mem_append_right _ hi, hio, hii⟩

end CacheLemmas

/-! ### Path-lookup lemmas -/

section PathLemmas

theorem find_by_title_none (c : Cache) (t k : String) :
    find_by_title c t k none = find_by_title_any c t k := by
  unfold find_by_title find_by_title_any
  simp [Bool.and_true]

theorem find_by_path_nil (c : Cache) (path k : String)
    (hpp : pathParts path = []) : find_by_path c path k = none := by
  unfold find_by_path
  rw [hpp]

theorem find_by_path_single (c : Cache) (path k p : String)
    (hpp : pathParts path = [p]) :
    find_by_path c path k = find_by_title c p k none := by
  unfold find_by_path
  rw [hpp]

theorem find_by_path_cons_cons (c : Cache) (path k p q : String)
    (rest : List String) (hpp : pathParts path = p :: q :: rest) :
    find_by_path c path k =
      (match find_by_title c p k none with
       | none => none
       | some r => if r = "" then none else findRest c k (q :: rest) r) := by
  unfold find_by_path
  rw [hpp]

theorem find_by_title_dbs_irrel (c : Cache) (dbs : List (String × Entry))
    (t : String) (pid : Option String) :
    find_by_title { c with databases := dbs } t "page" pid =
      find_by_title c t "page" pid := rfl

theorem find_by_title_pages_irrel (c : Cache) (ps : List (String × Entry))
    (t : String) (pid : Option String) :
    find_by_title { c with pages := ps } t "database" pid =
      find_by_title c t "database" pid := rfl

theorem findRest_dbs_irrel (c : Cache) (dbs : List (String × Entry))
    (rest : List String) (cur : String) :
    findRest { c with databases := dbs } "page" rest cur =
      findRest c "page" rest cur := by
  induction rest generalizing cur with
  | nil => rfl
  | cons p rest ih =>
    unfold findRest
    rw [find_by_title_dbs_irrel]
    cases hft : find_by_title c p "page" (some cur) with
    | none => rfl
    | some r =>
      by_cases hr : r = ""
      · simp [hr]
      · simp [hr, ih]

theorem findRest_pages_irrel (c : Cache) (ps : List (String × Entry))
    (rest : List String) (cur : String) :
    findRest { c with pages := ps } "database" rest cur =
      findRest c "database" rest cur := by
  induction rest generalizing cur with
  | nil => rfl
  | cons p rest ih =>
    unfold findRest
    rw [find_by_title_pages_irrel]
    cases hft : find_by_title c p "database" (some cur) with
    | none => rfl
    | some r =>
      by_cases hr : r = ""
      · simp [hr]
      · simp [hr, ih]

theorem find_by_path_dbs_irrel (c : Cache) (dbs : List (String × Entry))
    (path : String) :
    find_by_path { c with databases := dbs } path "page" =
      find_by_path c path "page" := by
  cases hpp : pathParts path with
  | nil => rw [find_by_path_nil _ _ _ hpp, find_by_path_nil _ _ _ hpp]
  | cons p rest =>
    cases rest with
    | nil =>
      rw [find_by_path_single _ _ _ _ hpp, find_by_path_single _ _ _ _ hpp,
        find_by_title_dbs_irrel]
    | cons q rest =>
      rw [find_by_path_cons_cons _ _ _ _ _ _ hpp,
        find_by_path_cons_cons _ _ _ _ _ _ hpp, find_by_title_dbs_irrel]
      cases hft : find_by_title c p "page" none with
      | none => rfl
      | some r =>
        by_cases hr : r = ""
        · simp [hr]
        · simp [hr, findRest_dbs_irrel]

theorem find_by_path_pages_irrel (c : Cache) (ps : List (String × Entry))
    (path : String) :
    find_by_path { c with pages := ps } path "database" =
      find_by_path c path "database" := by
  cases hpp : pathParts path with
  | nil => rw [find_by_path_nil _ _ _ hpp, find_by_path_nil _ _ _ hpp]
  | cons p rest =>
    cases rest with
    | nil =>
      rw [find_by_path_single _ _ _ _ hpp, find_by_path_single _ _ _ _ hpp,
        find_by_title_pages_irrel]
    | cons q rest =>
      rw [find_by_path_cons_cons _ _ _ _ _ _ hpp,
        find_by_path_cons_cons _ _ _ _ _ _ hpp, find_by_title_pages_irrel]
      cases hft : find_by_title c p "database" none with
      | none => rfl
      | some r =>
        by_cases hr : r = ""
        · simp [hr]
        · simp [hr, findRest_pages_irrel]

end PathLemmas

/-! ### Claim theorems -/

/-- C1 (counterexample): with `last_refresh` at time `0`, querying
`is_stale` at time `86400` — exactly 24 hours later — returns `false`,
because the comparison `datetime.now() - last_refresh >
timedelta(hours=24)` is strict; the claim asserts it returns `true` at
exactly 24 hours. -/
theorem C1_counterexample :
    is_stale ⟨[], [], [], some 0⟩ 86400 = false ∧ (86400 : Int) - 0 = 24 * 3600 := by
  decide

/-- C1 (amended): `is_stale` returns true if and only if
`last_refresh` is absent or the elapsed time strictly exceeds 24 hours
(86400 seconds); in particular, at exactly 24 hours elapsed it returns
`false`. -/
theorem C1_is_stale_strict (c : Cache) (now : Int) :
    (is_stale c now = true ↔
      c.last_refresh = none ∨ ∃ t, c.last_refresh = some t ∧ now - t > 86400) ∧
    (∀ t : Int, is_stale ⟨c.pages, c.databases, c.hierarchy, some t⟩ (t + 86400) = false) := by
  constructor
  · cases hlr : c.last_refresh with
    | none => simp [is_stale, hlr]
    | some t => simp [is_stale, hlr]
  · intro t
    simp only [is_stale, decide_eq_false_iff_not]
    omega

/-- C3 (evaluation at the failing input): for a search result whose
parent is `{"workspace": true}`, `update_from_search` stores the entry
with `parent_id = True` — the boolean retrieved by
`parent.get("workspace")`, not "no parent" — and files the item in the
hierarchy index under the key `True`, because the guard
`parent_id != "workspace"` compares against the string
`"workspace"` which the extracted value never is. -/
theorem C3_workspace_parent_stored :
    alookup (update_from_search Cache.empty [wsItem] 0).pages "p1" =
      some ⟨"p1", "Notes", .vbool true, some "u", 0, false⟩ ∧
    (update_from_search Cache.empty [wsItem] 0).hierarchy =
      [(.vbool true, ["p1"])] := by
  decide

/-- C5 (counterexample): a syntactically valid persisted state whose
page entry lacks a `"title"` field makes `find_by_path` raise a
`KeyError` (at `item["title"]`) instead of reporting not-found, so
cache operations do not tolerate every malformed persisted state. -/
theorem C5_counterexample :
    find_by_path_raw badState "Anything" "page" =
      Except.error "KeyError: title" := rfl

/-- C5 (amended): `load()` itself never raises — a missing file or any
parse failure yields the default empty structure — and a successfully
parsed document is returned without any validation (which is why later
operations can throw on malformed states). -/
theorem C5_load_total :
    load none = defaultData ∧ load (some none) = defaultData ∧
    ∀ v : J, load (some (some v)) = v :=
  ⟨rfl, rfl, fun _ => rfl⟩

/-- C6: `update_from_search` is idempotent — applying the same
well-formed result list twice (at the same wall-clock instant) yields
a cache equal to applying it once.  Well-formedness of a search-result
sequence includes each object occurring at most once, i.e. pairwise
distinct identifiers, as in genuine API result sets. -/
theorem C6_update_from_search_idempotent (c : Cache) (R : List Item) (t : Int)
    (h : R.Pairwise (fun i j => i.id ≠ j.id)) :
    update_from_search (update_from_search c R t) R t =
      update_from_search c R t := by
  apply cacheExt
  · simp only [update_pages]
    exact foldl_dstep_idem _ _ _ R h c.pages
  · simp only [update_databases]
    exact foldl_dstep_idem _ _ _ R h c.databases
  · simp only [update_hierarchy]
    exact foldl_hstep_idem _ _ _ R c.hierarchy
  · simp only [update_lastRefresh]

/-- C6 (witness): idempotence instantiated at a concrete one-element
result list. -/
theorem C6_witness :
    update_from_search (update_from_search Cache.empty [wsItem] 0) [wsItem] 0 =
      update_from_search Cache.empty [wsItem] 0 :=
  C6_update_from_search_idempotent Cache.empty [wsItem] 0 (by simp)

/-- C8 (counterexample): a page result and a database result sharing
the identifier `"x"` leave `"x"` present in both `pages` and
`databases` after a single `update_from_search` from the empty cache,
violating the claimed invariant for arbitrary input sequences. -/
theorem C8_counterexample :
    keyMem (update_from_search Cache.empty [pgX, dbX] 0).pages "x" = true ∧
    keyMem (update_from_search Cache.empty [pgX, dbX] 0).databases "x" = true := by
  decide

/-- C8 (amended): identifiers appear in at most one of
`pages`/`databases` for every sequence of `update_from_search` calls
from the empty cache, provided no identifier occurs both with object
type `"page"` and with object type `"database"` across the processed
results — `update_from_search` itself never moves an identifier from
one mapping to the other. -/
theorem C8_disjoint_of_consistent (calls : List (List Item × Int)) (x : String)
    (h : ∀ i ∈ allItems calls, ∀ j ∈ allItems calls,
      i.id = j.id → i.object = "page" → j.object ≠ "database") :
    ¬(keyMem (applyAll Cache.empty calls).pages x = true ∧
      keyMem (applyAll Cache.empty calls).databases x = true) := by
  rintro ⟨hp, hd⟩
  rcases keyMem_applyAll_pages calls Cache.empty x hp with h1 | ⟨i, hi, hio, hii⟩
  · simp [Cache.empty, keyMem] at h1
  · rcases keyMem_applyAll_databases calls Cache.empty x hd with h2 | ⟨j, hj, hjo, hjj⟩
    · simp [Cache.empty, keyMem] at h2
    · exact h i hi j hj (hii.trans hjj.symm) hio hjo

/-- C8 (witness): the amended invariant instantiated at a concrete
two-call sequence with type-consistent identifiers. -/
theorem C8_witness :
    ¬(keyMem (applyAll Cache.empty [([pgA], 0), ([dbB], 1)]).pages "pa" = true ∧
      keyMem (applyAll Cache.empty [([pgA], 0), ([dbB], 1)]).databases "pa" = true) :=
  C8_disjoint_of_consistent [([pgA], 0), ([dbB], 1)] "pa" (by decide)

/-- C2 (counterexample): in `cFirstSeg` the only entry whose title
matches segment 0 of the path `"A/B"` has the non-null cached parent
`"x"`, yet `find_by_path` still resolves the path to `"b"` — it does
not return not-found as the claim asserts, because passing
`parent_id=None` for the first segment imposes no constraint. -/
theorem C2_counterexample :
    (∀ p ∈ cFirstSeg.pages, pyLower p.2.title = pyLower "A" →
      p.2.parent_id ≠ PyVal.vnone) ∧
    find_by_path cFirstSeg "A/B" "page" = some "b" := by
  decide

/-- C2 (amended): for every path with two or more segments,
`find_by_path` resolves the first segment with the parent constraint
lifted — a pure title match identical to a single-segment lookup
(`find_by_title_any` never reads `parent_id`) — so a cache in which
the only title-matching entry for segment 0 has a non-null `parent_id`
still resolves segment 0 to that entry. -/
theorem C2_first_segment_unconstrained (c : Cache) (obj_type path s0 : String)
    (rest : List String) (hp : pathParts path = s0 :: rest) (hne : rest ≠ []) :
    find_by_path c path obj_type =
      (match find_by_title_any c s0 obj_type with
       | none => none
       | some r => if r = "" then none else findRest c obj_type rest r) := by
  obtain ⟨r1, rest', rfl⟩ : ∃ r1 rest', rest = r1 :: rest' := by
    cases rest with
    | nil => exact absurd rfl hne
    | cons a b => exact ⟨a, b, rfl⟩
  rw [find_by_path_cons_cons c path obj_type s0 r1 rest' hp, find_by_title_none]

/-- C2 (witness): the amended statement instantiated at the concrete
cache `cFirstSeg` and path `"A/B"`. -/
theorem C2_witness :
    find_by_path cFirstSeg "A/B" "page" =
      (match find_by_title_any cFirstSeg "A" "page" with
       | none => none
       | some r => if r = "" then none else findRest cFirstSeg "page" ["B"] r) :=
  C2_first_segment_unconstrained cFirstSeg "page" "A/B" "A" ["B"] (by decide)
    (by decide)

/-- C9: `find_by_path` resolves every segment — intermediate segments
included — only against the collection of the requested kind: the
result for kind `"page"` is invariant under arbitrary changes to
`databases` (and symmetrically for kind `"database"`), and on the
concrete cache `mixedChain`, whose `parent_id` chain `a → b → c`
passes through the database `b`, the path `"A/B/C"` with kind
`"page"` returns not-found even though the chain of parent links
exists. -/
theorem C9_kind_restricted :
    (∀ (c : Cache) (path : String) (dbs : List (String × Entry)),
      find_by_path { c with databases := dbs } path "page" =
        find_by_path c path "page") ∧
    (∀ (c : Cache) (path : String) (ps : List (String × Entry)),
      find_by_path { c with pages := ps } path "database" =
        find_by_path c path "database") ∧
    find_by_path mixedChain "A/B/C" "page" = none ∧
    alookup mixedChain.databases "b" = some ⟨"b", "B", .vstr "a", none, 0, false⟩ ∧
    alookup mixedChain.pages "c" = some ⟨"c", "C", .vstr "b", none, 0, false⟩ :=
  ⟨fun c path dbs => find_by_path_dbs_irrel c dbs path,
   fun c path ps => find_by_path_pages_irrel c ps path,
   by decide, by decide, by decide⟩

/-- C7: when the input string consists, after stripping the hyphen
separators, of exactly 32 hexadecimal characters, `resolve_id` returns
it unchanged with the cache untouched and an empty effect trace — no
cache lookup and no network search — regardless of what the cache
holds or what the remote side would answer. -/
theorem C7_uuid_fast_path (c : Cache) (v obj_type : String)
    (results : List Item) (now : Int)
    (h32 : (v.data.filter (fun ch => ch != '-')).length = 32)
    (hhex : ((v.data.filter (fun ch => ch != '-')).map Char.toLower).all
      (fun ch => ch ∈ hexDigits) = true) :
    resolve_id c v obj_type results now = (.ok v, c, []) := by
  have hu : is_uuid v = true := by
    unfold is_uuid
    simp [h32, hhex]
  unfold resolve_id
  simp [hu]

/-- C7 (witness): the fast path at a concrete 32-hex-character string,
an arbitrary cache state, and an empty oracle. -/
theorem C7_witness :
    resolve_id cFirstSeg "0123456789abcdef0123456789abcdef" "page" [] 0 =
      (.ok "0123456789abcdef0123456789abcdef", cFirstSeg, []) :=
  C7_uuid_fast_path cFirstSeg "0123456789abcdef0123456789abcdef" "page" [] 0
    (by decide) (by decide)

/-- C4: when the name is not identifier-shaped and the cache lookup is
falsy, `resolve_id` always performs the fallback search — with the
text after the last `/` as query and the requested kind as filter —
before any terminal failure; with no results it fails with an error
naming the kind and the requested name, leaving the cache untouched;
with results it merges them via `update_from_search`, retries
`find_by_path` on the merged cache, returns the retried hit when
truthy and otherwise fails with the same terminal error. -/
theorem C4_resolve_fallback (c : Cache) (name obj_type : String)
    (results : List Item) (now : Int)
    (h1 : is_uuid name = false)
    (h2 : optTruthy (find_by_path c name obj_type) = false) :
    REvent.search (lastSegment name) obj_type ∈
      (resolve_id c name obj_type results now).2.2 ∧
    (results = [] →
      resolve_id c name obj_type results now =
        (.error ("Could not find " ++ obj_type ++ " '" ++ name ++ "'"), c,
         [.lookup name obj_type, .search (lastSegment name) obj_type])) ∧
    (results ≠ [] →
      (resolve_id c name obj_type results now).2.1 =
        update_from_search c results now ∧
      (optTruthy (find_by_path (update_from_search c results now) name obj_type) = true →
        (resolve_id c name obj_type results now).1 =
          .ok ((find_by_path (update_from_search c results now) name obj_type).getD "")) ∧
      (optTruthy (find_by_path (update_from_search c results now) name obj_type) = false →
        (resolve_id c name obj_type results now).1 =
          .error ("Could not find " ++ obj_type ++ " '" ++ name ++ "'"))) := by
  cases results with
  | nil =>
    refine ⟨?_, fun _ => ?_, fun hn => absurd rfl hn⟩
    · unfold resolve_id
      simp [h1, h2]
    · unfold resolve_id
      simp [h1, h2]
  | cons i rs =>
    refine ⟨?_, fun he => absurd he (by simp), fun _ => ⟨?_, fun h3 => ?_, fun h3 => ?_⟩⟩
    · by_cases h3 : optTruthy
        (find_by_path (update_from_search c (i :: rs) now) name obj_type) <;>
        simp [resolve_id, h1, h2, h3]
    · by_cases h3 : optTruthy
        (find_by_path (update_from_search c (i :: rs) now) name obj_type) <;>
        simp [resolve_id, h1, h2, h3]
    · simp [resolve_id, h1, h2, h3]
    · simp [resolve_id, h1, h2, h3]

/-- C4 (witness): with an empty cache, a non-identifier name and an
empty oracle, the fallback search event is in the trace. -/
theorem C4_witness :
    REvent.search (lastSegment "X") "page" ∈
      (resolve_id Cache.empty "X" "page" [] 0).2.2 :=
  (C4_resolve_fallback Cache.empty "X" "page" [] 0 (by decide) (by decide)).1

/-- C10: `find_by_path`, `get_title` and `is_stale` are pure reads:
they leave the in-memory cache structure and the persisted cache file
unchanged for every system state and every argument. -/
theorem C10_readers_pure (s : Sys) (now : Int) (path obj_type item_id : String) :
    (is_stale_op s now).1 = s ∧ (find_by_path_op s path obj_type).1 = s ∧
    (get_title_op s item_id).1 = s :=
  ⟨rfl, rfl, rfl⟩

end Notion
